import Mathlib

/-!
Verification of `src/scraping_tests/train_scraper.py` (BoltAssist repository).

The program fetches one web page, parses its HTML, extracts a table of
station-name → arrival-times entries, and prints the result.  We embed the
parsed HTML document as a tree of nodes, the BeautifulSoup operations the
code uses (`find`, `find_all`, `get_text(strip=True)`) as functions on that
tree, the Python `dict` as an insertion-ordered association list with
overwrite-in-place semantics, and the whole `scrape_train_arrivals` function
as a pure function from the outcome of its external calls (the HTTP fetch and
the HTML parse) to the list of lines it prints, together with the exception
(if any) escaping its `try` block.
-/

set_option autoImplicit false

namespace TrainScraper

/-- A parsed HTML node: either a text fragment or an element with a tag name
and a list of child nodes, as produced by `BeautifulSoup(..., 'html.parser')`. -/
inductive Node where
  | text : String → Node
  | elem : String → List Node → Node

mutual

/-- All descendants of a node in document (depth-first pre-order) order,
the node itself excluded — the search space of BeautifulSoup's
`find` / `find_all`. -/
def descendants : Node → List Node
  | .text _ => []
  | .elem _ cs => descendantsList cs

/-- Pre-order listing of a forest: each root followed by its descendants. -/
def descendantsList : List Node → List Node
  | [] => []
  | c :: cs => c :: (descendants c ++ descendantsList cs)

end

mutual

/-- The text fragments of a node's subtree, in document order
(the strings BeautifulSoup's `get_text` concatenates). -/
def textFragments : Node → List String
  | .text s => [s]
  | .elem _ cs => textFragmentsList cs

/-- Text fragments of a forest, in document order. -/
def textFragmentsList : List Node → List String
  | [] => []
  | c :: cs => textFragments c ++ textFragmentsList cs

end

/-- Python's whitespace characters (the ASCII ones `str.strip()` removes). -/
def isSpaceChar (c : Char) : Bool :=
  c == ' ' || c == '\t' || c == '\n' || c == '\r' || c == '\x0b' || c == '\x0c'

/-- Python `s.strip()`: drop whitespace from both ends of a string. -/
def strip (s : String) : String :=
  ⟨((s.data.dropWhile isSpaceChar).reverse.dropWhile isSpaceChar).reverse⟩

/-- Whether a node is an element with the given tag name. -/
def hasTag (tag : String) : Node → Bool
  | .elem t _ => t == tag
  | .text _ => false

/-- BeautifulSoup `node.find_all(tag)`: every descendant element with the
given tag name, in document order. -/
def find_all (tag : String) (n : Node) : List Node :=
  (descendants n).filter (hasTag tag)

/-- BeautifulSoup `node.find(tag)`: the first descendant element with the
given tag name, or `none` (Python `None`). -/
def find (tag : String) (n : Node) : Option Node :=
  (find_all tag n).head?

/-- BeautifulSoup `node.get_text(strip=True)`: each text fragment of the
subtree stripped of surrounding whitespace, then concatenated. -/
def get_text_strip (n : Node) : String :=
  String.join ((textFragments n).map strip)

/-- Python `dict` assignment `d[k] = v` on an insertion-ordered association
list: if the key is present, its value is replaced in place; otherwise the
pair is appended at the end. -/
def dictInsert (k : String) (v : List String) :
    List (String × List String) → List (String × List String)
  | [] => [(k, v)]
  | (k', v') :: rest =>
    if k' == k then (k, v) :: rest else (k', v') :: dictInsert k v rest

/-- Python `d[k]`-style lookup: the value at the first (and, for a dict,
only) occurrence of the key. -/
def dictLookup (k : String) : List (String × List String) → Option (List String)
  | [] => none
  | (k', v) :: rest => if k' == k then some v else dictLookup k rest

/-- The body of the row loop of `scrape_train_arrivals`, one iteration:

```python
station_cell = row.find('td')
time_cells = row.find_all('span')
if station_cell and time_cells:
    station_name = station_cell.get_text(strip=True)
    arrival_times = [time.get_text(strip=True) for time in time_cells]
    if station_name:
        arrivals[station_name] = arrival_times
```

A `Tag` is truthy iff not `None`; a result list is truthy iff non-empty;
a string is truthy iff non-empty. -/
def processRow (arrivals : List (String × List String)) (row : Node) :
    List (String × List String) :=
  let station_cell := find "td" row
  let time_cells := find_all "span" row
  match station_cell with
  | none => arrivals
  | some cell =>
    if time_cells.isEmpty then arrivals
    else
      let station_name := get_text_strip cell
      let arrival_times := time_cells.map get_text_strip
      if station_name.isEmpty then arrivals
      else dictInsert station_name arrival_times arrivals

/-- The whole row loop: `arrivals = {}` then one `processRow` per row of
`rows`, in document order. -/
def processRows (rows : List Node) : List (String × List String) :=
  rows.foldl processRow []

/-- Python `f"{s:<25}"` (and generally `:<w`): left-justify by padding with
spaces to a minimum width; a longer string is left untouched. -/
def ljust (s : String) (w : Nat) : String :=
  s ++ String.mk (List.replicate (w - s.length) ' ')

/-- The hard-coded target URL. -/
def url : String := "https://www.olsztyn.com.pl/pkp,przyjazdy.html"

/-- The lines printed by the reporting section:

```python
print("\n--- Train Arrivals for Olsztyn Główny ---")
if arrivals:
    for station, times in arrivals.items():
        print(f"From: {station:<25} | Arrivals: {', '.join(times)}")
else:
    print("No arrival data could be parsed.")
print("-----------------------------------------")
```
-/
def reportLines (arrivals : List (String × List String)) : List String :=
  ["\n--- Train Arrivals for Olsztyn Główny ---"]
  ++ (if arrivals.isEmpty then ["No arrival data could be parsed."]
      else arrivals.map (fun p =>
        "From: " ++ ljust p.1 25 ++ " | Arrivals: " ++ String.intercalate ", " p.2))
  ++ ["-----------------------------------------"]

/-- `response.raise_for_status()`: raises `requests.exceptions.HTTPError`
(a `RequestException`) exactly for status codes 400–599, with a message
naming the status code and the URL; other statuses pass silently.
Modelled from the `requests` library contract the code relies on. -/
def http_error (status : Nat) : Option String :=
  if 400 ≤ status ∧ status < 500 then
    some (toString status ++ " Client Error for url: " ++ url)
  else if 500 ≤ status ∧ status < 600 then
    some (toString status ++ " Server Error for url: " ++ url)
  else none

/-- A Python exception reaching the `except` clauses: either a
`requests.exceptions.RequestException` (raised by `requests.get` or
`raise_for_status`) or any other `Exception` (e.g. raised while parsing). -/
inductive Exn where
  | requestException : String → Exn
  | otherException : String → Exn
deriving DecidableEq

/-- Outcome of `BeautifulSoup(response.content, 'html.parser')`: the parsed
document tree, or an exception raised during parsing. -/
inductive ParseOutcome where
  | raises : String → ParseOutcome
  | returns : Node → ParseOutcome

/-- Outcome of `requests.get(url, headers=headers)`: a
`RequestException` (DNS failure, connection refused, timeout, ...), or a
response carrying an HTTP status code and a body whose parse yields the
given `ParseOutcome`. -/
inductive FetchOutcome where
  | raises : String → FetchOutcome
  | returns : Nat → ParseOutcome → FetchOutcome

/-- The `try` block of `scrape_train_arrivals`, from the first `print` to the
report: the lines printed before control leaves the block, paired with the
exception escaping it, if any. -/
def tryBody (f : FetchOutcome) : List String × Option Exn :=
  let l0 := "Fetching data from " ++ url ++ "..."
  match f with
  | .raises e => ([l0], some (.requestException e))
  | .returns status parse =>
    match http_error status with
    | some msg => ([l0], some (.requestException msg))
    | none =>
      let l1 := "Successfully fetched data."
      match parse with
      | .raises e => ([l0, l1], some (.otherException e))
      | .returns soup =>
        match find "tbody" soup with
        | none =>
          ([l0, l1, "Error: Could not find the arrivals table (tbody) on the page."],
           none)
        | some table_body =>
          let rows := find_all "tr" table_body
          let arrivals := processRows rows
          ([l0, l1, "Found " ++ toString rows.length ++ " arrival rows. Parsing..."]
            ++ reportLines arrivals,
           none)

/-- The whole `scrape_train_arrivals` call: the `try` block wrapped in its
two handlers.  `except requests.exceptions.RequestException` prints
`"Error fetching the URL: ..."`; `except Exception` prints
`"An unexpected error occurred: ..."`.  The result is all lines printed by
the call, paired with the exception propagating to the caller, if any. -/
def run_outcome (f : FetchOutcome) : List String × Option Exn :=
  match tryBody f with
  | (ls, none) => (ls, none)
  | (ls, some (.requestException e)) =>
    (ls ++ ["Error fetching the URL: " ++ e], none)
  | (ls, some (.otherException e)) =>
    (ls ++ ["An unexpected error occurred: " ++ e], none)

/-- The lines `scrape_train_arrivals()` prints, as a function of the outcome
of its external calls. -/
def scrape_train_arrivals (f : FetchOutcome) : List String :=
  (run_outcome f).1

/-- The entry a single row contributes (if any): `some (name, times)` when
the row passes both validity checks, `none` when it is skipped. -/
def rowEntry (row : Node) : Option (String × List String) :=
  match find "td" row with
  | none => none
  | some cell =>
    if (find_all "span" row).isEmpty then none
    else if (get_text_strip cell).isEmpty then none
    else some (get_text_strip cell, (find_all "span" row).map get_text_strip)

/-- The `(name, times)` entries of the valid rows whose station name is `s`,
in document order. -/
def entriesFor (s : String) (rows : List Node) : List (String × List String) :=
  (rows.filterMap rowEntry).filter (fun p => p.1 == s)

/-- The entries of an association list whose key is `s`, in order. -/
def entriesForKey (s : String) (l : List (String × List String)) :
    List (String × List String) :=
  l.filter (fun p => p.1 == s)

/-- The keys of an association list are pairwise distinct (the invariant a
Python `dict` maintains). -/
def NodupKeys (l : List (String × List String)) : Prop :=
  (l.map Prod.fst).Nodup

/-- Claim C3's reading of the extraction: the time markers nested inside the
row's *secondary* data cell only.  Modelled from the spec: "elements nested
inside a secondary cell each wrapping one arrival-time or status string". -/
def spec_secondary_cell_times (row : Node) : List String :=
  match (find_all "td" row).get? 1 with
  | some cell => (find_all "span" cell).map get_text_strip
  | none => []

/-- The text of the exception a failing fetch produces: the
`RequestException` message for a transport failure, the `HTTPError` message
for a 4xx/5xx status. -/
def failure_message : FetchOutcome → String
  | .raises e => e
  | .returns status _ => (http_error status).getD ""

/-! ### Concrete fixtures used by witnesses and counterexamples -/

/-- A valid row: station "A", one time marker "10:15". -/
def fixtureRow : Node :=
  .elem "tr" [.elem "td" [.text "A"], .elem "td" [.elem "span" [.text "10:15"]]]

/-- First of two rows sharing the station name "A". -/
def dupRow1 : Node :=
  .elem "tr" [.elem "td" [.text "A"], .elem "td" [.elem "span" [.text "08:00"]]]

/-- Second of two rows sharing the station name "A". -/
def dupRow2 : Node :=
  .elem "tr" [.elem "td" [.text "A"], .elem "td" [.elem "span" [.text "09:00"]]]

/-- A row whose *first* cell also contains a `span` element: the code's
`row.find_all('span')` picks it up although it is not in the secondary cell. -/
def mixedRow : Node :=
  .elem "tr" [.elem "td" [.elem "span" [.text "Olsztyn"]],
              .elem "td" [.elem "span" [.text "10:15"]]]

/-- A row whose time markers read "10:15", "CANCELLED", "10:47" in order. -/
def orderRow : Node :=
  .elem "tr" [.elem "td" [.text "A"],
              .elem "td" [.elem "span" [.text "10:15"],
                          .elem "span" [.text "CANCELLED"],
                          .elem "span" [.text "10:47"]]]

/-- A document with no `tbody` element anywhere. -/
def docNoTbody : Node :=
  .elem "html" [.elem "p" [.text "x"]]

/-- A document whose `tbody` holds one valid row. -/
def docOneRow : Node :=
  .elem "html" [.elem "tbody" [fixtureRow]]

/-- A document whose `tbody` holds no rows at all. -/
def docEmptyTbody : Node :=
  .elem "html" [.elem "tbody" []]

/-- A row with a non-empty station name whose two time markers hold only
whitespace, so both trimmed texts are empty strings. -/
def blankTimesRow : Node :=
  .elem "tr" [.elem "td" [.text "A"],
              .elem "td" [.elem "span" [.text "  "], .elem "span" [.text " "]]]

/-! ### Basic lemmas about the row loop -/

/-- One loop iteration, restated through `rowEntry`: a skipped row leaves the
dict unchanged, a valid row performs one dict assignment. -/
theorem processRow_eq (a : List (String × List String)) (row : Node) :
    processRow a row =
      match rowEntry row with
      | none => a
      | some p => dictInsert p.1 p.2 a := by
  unfold processRow rowEntry
  cases find "td" row with
  | none => rfl
  | some cell =>
    by_cases h1 : (find_all "span" row).isEmpty <;>
      by_cases h2 : (get_text_strip cell).isEmpty <;>
        simp [h1, h2]

/-- Every member of `dictInsert k v l` is either the new pair or a member of
`l`. -/
theorem mem_dictInsert {x : String × List String} {k : String}
    {v : List String} {l : List (String × List String)}
    (h : x ∈ dictInsert k v l) : x = (k, v) ∨ x ∈ l := by
  induction l with
  | nil => simpa [dictInsert] using h
  | cons p rest ih =>
    obtain ⟨k', v'⟩ := p
    simp only [dictInsert] at h
    by_cases hk : (k' == k) = true
    · simp only [hk, if_pos] at h
      rcases List.mem_cons.mp h with h | h
      · exact Or.inl h
      · exact Or.inr (List.mem_cons_of_mem _ h)
    · simp only [hk, if_neg, Bool.false_eq_true, not_false_iff] at h
      rcases List.mem_cons.mp h with h | h
      · exact Or.inr (h ▸ List.mem_cons_self _ _)
      · rcases ih h with h | h
        · exact Or.inl h
        · exact Or.inr (List.mem_cons_of_mem _ h)

/-- Every member of the dict built by the row loop comes from the initial
dict or from a valid row. -/
theorem mem_foldl_processRow (rows : List Node)
    (acc : List (String × List String)) (x : String × List String)
    (h : x ∈ rows.foldl processRow acc) :
    x ∈ acc ∨ ∃ r ∈ rows, rowEntry r = some x := by
  induction rows generalizing acc with
  | nil => exact Or.inl h
  | cons r rs ih =>
    simp only [List.foldl_cons] at h
    rcases ih _ h with hacc | ⟨r', hr', he⟩
    · rw [processRow_eq] at hacc
      cases hre : rowEntry r with
      | none => rw [hre] at hacc; exact Or.inl hacc
      | some p =>
        rw [hre] at hacc
        rcases mem_dictInsert hacc with hx | hx
        · exact Or.inr ⟨r, List.mem_cons_self _ _, by rw [hre, hx]⟩
        · exact Or.inl hx
    · exact Or.inr ⟨r', List.mem_cons_of_mem _ hr', he⟩

/-- Unfolding a valid `rowEntry`. -/
theorem rowEntry_some {row : Node} {k : String} {v : List String}
    (h : rowEntry row = some (k, v)) :
    ∃ cell, find "td" row = some cell ∧ get_text_strip cell = k ∧
      k ≠ "" ∧ find_all "span" row ≠ [] ∧
      v = (find_all "span" row).map get_text_strip := by
  unfold rowEntry at h
  split at h
  · exact absurd h (by simp)
  next cell hc =>
    split at h
    next h1 => exact absurd h (by simp)
    next h1 =>
      split at h
      next h2 => exact absurd h (by simp)
      next h2 =>
        have hkv : get_text_strip cell = k ∧
            (find_all "span" row).map get_text_strip = v := by
          have := Option.some.inj h
          exact ⟨congrArg Prod.fst this, congrArg Prod.snd this⟩
        refine ⟨cell, hc, hkv.1, ?_, ?_, hkv.2.symm⟩
        · intro hk
          exact h2 ((String.isEmpty_iff _).mpr (hkv.1.trans hk))
        · intro hnil
          exact h1 (List.isEmpty_iff.mpr hnil)

/-- Claim C1: a station name appears as a key of the final mapping only if
some row has a first data cell with non-empty trimmed text equal to that
name and at least one time-marker (`span`) element; a row failing either
condition contributes no entry. -/
theorem arrivals_keys_only_from_valid_rows (rows : List Node) (k : String)
    (v : List String) (h : (k, v) ∈ processRows rows) :
    ∃ row ∈ rows, ∃ cell, find "td" row = some cell ∧
      get_text_strip cell = k ∧ k ≠ "" ∧ find_all "span" row ≠ [] := by
  rcases mem_foldl_processRow rows [] _ h with h0 | ⟨r, hr, he⟩
  · exact absurd h0 (List.not_mem_nil _)
  · obtain ⟨cell, hc, hk, hne, hspan, _⟩ := rowEntry_some he
    exact ⟨r, hr, cell, hc, hk, hne, hspan⟩

/-- Witness for C1 at a concrete one-row table. -/
theorem arrivals_keys_only_from_valid_rows_app :
    ∃ row ∈ [Node.elem "tr" [.elem "td" [.text "A"],
                             .elem "td" [.elem "span" [.text "10:15"]]]],
      ∃ cell, find "td" row = some cell ∧
        get_text_strip cell = "A" ∧ "A" ≠ "" ∧ find_all "span" row ≠ [] :=
  arrivals_keys_only_from_valid_rows
    [Node.elem "tr" [.elem "td" [.text "A"],
                     .elem "td" [.elem "span" [.text "10:15"]]]]
    "A" ["10:15"] (by rw [show processRows [Node.elem "tr"
      [.elem "td" [.text "A"], .elem "td" [.elem "span" [.text "10:15"]]]] =
      [("A", ["10:15"])] from rfl]; exact List.mem_singleton.mpr rfl)

/-! ### The dict invariant and last-write-wins -/

/-- Keys of a dict after an assignment: the new key, or an old key. -/
theorem mem_keys_dictInsert {a k : String} {v : List String}
    {l : List (String × List String)}
    (h : a ∈ (dictInsert k v l).map Prod.fst) :
    a = k ∨ a ∈ l.map Prod.fst := by
  obtain ⟨x, hx, ha⟩ := List.mem_map.mp h
  rcases mem_dictInsert hx with h | h
  · exact Or.inl (by rw [← ha, h])
  · exact Or.inr (ha ▸ List.mem_map_of_mem Prod.fst h)

/-- A dict assignment preserves distinctness of keys. -/
theorem NodupKeys_dictInsert {k : String} {v : List String}
    {l : List (String × List String)} (h : NodupKeys l) :
    NodupKeys (dictInsert k v l) := by
  induction l with
  | nil => simp [NodupKeys, dictInsert]
  | cons p rest ih =>
    obtain ⟨k', v'⟩ := p
    have htail : NodupKeys rest := (List.nodup_cons.mp h).2
    have hhead : k' ∉ rest.map Prod.fst := (List.nodup_cons.mp h).1
    unfold dictInsert
    by_cases hk : (k' == k) = true
    · have : k' = k := beq_iff_eq.mp hk
      simp only [hk, if_pos]
      exact List.nodup_cons.mpr ⟨this ▸ hhead, htail⟩
    · simp only [hk, Bool.false_eq_true, if_neg, not_false_iff]
      refine List.nodup_cons.mpr ⟨?_, ih htail⟩
      intro hmem
      rcases mem_keys_dictInsert hmem with h | h
      · exact hk (beq_iff_eq.mpr h)
      · exact hhead h

/-- A key absent from a dict selects no entries. -/
theorem entriesForKey_eq_nil {k : String} {l : List (String × List String)}
    (h : k ∉ l.map Prod.fst) : entriesForKey k l = [] := by
  refine List.filter_eq_nil_iff.mpr ?_
  intro p hp hbeq
  exact h (beq_iff_eq.mp hbeq ▸ List.mem_map_of_mem Prod.fst hp)

/-- Assigning a key in a dict with distinct keys leaves exactly one entry
under that key, holding the new value. -/
theorem entriesForKey_dictInsert_self {k : String} {v : List String}
    {l : List (String × List String)} (h : NodupKeys l) :
    entriesForKey k (dictInsert k v l) = [(k, v)] := by
  induction l with
  | nil => simp [entriesForKey, dictInsert]
  | cons p rest ih =>
    obtain ⟨k', v'⟩ := p
    have htail : NodupKeys rest := (List.nodup_cons.mp h).2
    have hhead : k' ∉ rest.map Prod.fst := (List.nodup_cons.mp h).1
    unfold dictInsert
    by_cases hk : (k' == k) = true
    · have hk' : k' = k := beq_iff_eq.mp hk
      simp only [hk, if_pos]
      have hrest : entriesForKey k rest = [] :=
        entriesForKey_eq_nil (hk' ▸ hhead)
      simp only [entriesForKey, List.filter_cons] at hrest ⊢
      simp [hrest]
    · simp only [hk, Bool.false_eq_true, if_neg, not_false_iff]
      simp only [entriesForKey, List.filter_cons, hk]
      simpa [entriesForKey] using ih htail

/-- Assigning one key does not change the entries under another key. -/
theorem entriesForKey_dictInsert_other {k k' : String} {v : List String}
    {l : List (String × List String)} (h : k' ≠ k) :
    entriesForKey k (dictInsert k' v l) = entriesForKey k l := by
  induction l with
  | nil => simp [entriesForKey, dictInsert, h]
  | cons p rest ih =>
    obtain ⟨k₀, v₀⟩ := p
    unfold dictInsert
    by_cases hk : (k₀ == k') = true
    · have hk0 : k₀ = k' := beq_iff_eq.mp hk
      simp only [hk, if_pos]
      simp [entriesForKey, List.filter_cons, hk0, h]
    · simp only [hk, Bool.false_eq_true, if_neg, not_false_iff]
      simp only [entriesForKey, List.filter_cons] at ih ⊢
      by_cases hk2 : (k₀ == k) = true <;> simp [hk2, ih]

/-- The row loop on any starting dict with distinct keys: afterwards the
entries under a key `k` are exactly one pair — the entry of the last valid
row named `k` — or, if no row is named `k`, whatever the starting dict held. -/
theorem entriesForKey_foldl (rows : List Node) (k : String)
    (acc : List (String × List String)) (hacc : NodupKeys acc) :
    entriesForKey k (rows.foldl processRow acc) =
      match (entriesFor k rows).getLast? with
      | some p => [p]
      | none => entriesForKey k acc := by
  induction rows generalizing acc with
  | nil => simp [entriesFor]
  | cons r rs ih =>
    simp only [List.foldl_cons]
    rw [processRow_eq]
    cases hre : rowEntry r with
    | none =>
      have hent : entriesFor k (r :: rs) = entriesFor k rs := by
        simp [entriesFor, List.filterMap_cons, hre]
      rw [hent]
      exact ih acc hacc
    | some p =>
      obtain ⟨k₀, v⟩ := p
      by_cases hk : (k₀ == k) = true
      · have hk0 : k₀ = k := beq_iff_eq.mp hk
        have hent : entriesFor k (r :: rs) = (k₀, v) :: entriesFor k rs := by
          simp [entriesFor, List.filterMap_cons, hre, List.filter_cons, hk]
        rw [hent, ih _ (NodupKeys_dictInsert hacc)]
        cases hq : entriesFor k rs with
        | nil =>
          rw [List.getLast?_singleton]
          subst hk0
          exact entriesForKey_dictInsert_self hacc
        | cons q qs =>
          rw [List.getLast?_cons_cons,
            List.getLast?_eq_getLast (q :: qs) (List.cons_ne_nil q qs)]
      · have hne : k₀ ≠ k := fun h => hk (beq_iff_eq.mpr h)
        have hent : entriesFor k (r :: rs) = entriesFor k rs := by
          simp only [entriesFor, List.filterMap_cons, hre, List.filter_cons, hk]
          simp [entriesFor, hk]
        rw [hent, ih _ (NodupKeys_dictInsert hacc),
          entriesForKey_dictInsert_other hne]

/-- Claim C2: when one or more rows carry the same station name, the final
mapping contains exactly one entry under that name, and its value is the
time list of the last such valid row in document order (`p` is the last
element of the document-ordered list of `(name, times)` entries named `s`). -/
theorem arrivals_last_duplicate_row_wins (rows : List Node) (s : String)
    (p : String × List String)
    (h : (entriesFor s rows).getLast? = some p) :
    entriesForKey s (processRows rows) = [p] := by
  have hmain := entriesForKey_foldl rows s []
    (by simp [NodupKeys])
  rw [h] at hmain
  exact hmain

/-- Witness for C2: two rows named "A" with different time lists; only the
second row's times survive. -/
theorem arrivals_last_duplicate_row_wins_app :
    entriesForKey "A" (processRows [dupRow1, dupRow2]) = [("A", ["09:00"])] :=
  arrivals_last_duplicate_row_wins [dupRow1, dupRow2] "A" ("A", ["09:00"]) rfl

/-! ### Time extraction (claims C3, C4) -/

/-- Claim C3 counterexample: on `mixedRow`, whose first cell contains a
`span`, the code's `row.find_all('span')` collects the span of the first
cell as well, so `arrival_times` is not the list of time markers nested
inside the secondary cell. -/
theorem arrival_times_not_only_secondary_cell :
    (find_all "span" mixedRow).map get_text_strip = ["Olsztyn", "10:15"] ∧
    spec_secondary_cell_times mixedRow = ["10:15"] ∧
    (find_all "span" mixedRow).map get_text_strip ≠
      spec_secondary_cell_times mixedRow ∧
    processRows [mixedRow] = [("Olsztyn", ["Olsztyn", "10:15"])] :=
  ⟨rfl, rfl, by decide, rfl⟩

/-- Claim C3 (amended): every value of the final mapping is the list of the
trimmed texts of ALL `span` elements found anywhere within some row, in
document order. -/
theorem arrival_times_are_all_row_spans (rows : List Node) (k : String)
    (v : List String) (h : (k, v) ∈ processRows rows) :
    ∃ row ∈ rows, v = (find_all "span" row).map get_text_strip := by
  rcases mem_foldl_processRow rows [] _ h with h0 | ⟨r, hr, he⟩
  · exact absurd h0 (List.not_mem_nil _)
  · obtain ⟨cell, _, _, _, _, hv⟩ := rowEntry_some he
    exact ⟨r, hr, hv⟩

/-- Witness for the amended C3 at a concrete one-row table. -/
theorem arrival_times_are_all_row_spans_app :
    ∃ row ∈ [fixtureRow],
      (["10:15"] : List String) = (find_all "span" row).map get_text_strip :=
  arrival_times_are_all_row_spans [fixtureRow] "A" ["10:15"]
    (show ("A", ["10:15"]) ∈ processRows [fixtureRow] by
      rw [show processRows [fixtureRow] = [("A", ["10:15"])] from rfl]
      exact List.mem_singleton.mpr rfl)

/-- Claim C4: a row whose time markers read "10:15", "CANCELLED", "10:47"
in document order yields exactly that `arrival_times` sequence — same
order, no deduplication, no reordering. -/
theorem arrival_times_order_preserved (row : Node) (a b c : Node)
    (h : find_all "span" row = [a, b, c])
    (ha : get_text_strip a = "10:15") (hb : get_text_strip b = "CANCELLED")
    (hc : get_text_strip c = "10:47") :
    (find_all "span" row).map get_text_strip =
      ["10:15", "CANCELLED", "10:47"] := by
  rw [h]
  simp [ha, hb, hc]

/-- Witness for C4 at a concrete row. -/
theorem arrival_times_order_preserved_app :
    (find_all "span" orderRow).map get_text_strip =
      ["10:15", "CANCELLED", "10:47"] :=
  arrival_times_order_preserved orderRow
    (.elem "span" [.text "10:15"]) (.elem "span" [.text "CANCELLED"])
    (.elem "span" [.text "10:47"]) rfl rfl rfl rfl

/-! ### Control flow (claims C5, C6, C7, C8, C9) -/

/-- Claim C5: a successfully fetched document with no `tbody` element makes
the program print the "table not found" message and stop: no row-count line,
no report, no exception. -/
theorem missing_table_reported (p : Node) (status : Nat)
    (hs : http_error status = none)
    (hn : find "tbody" p = none) :
    run_outcome (.returns status (.returns p)) =
      (["Fetching data from " ++ url ++ "...",
        "Successfully fetched data.",
        "Error: Could not find the arrivals table (tbody) on the page."],
       none) := by
  simp only [run_outcome, tryBody, hs, hn]

/-- Witness for C5 at a concrete document. -/
theorem missing_table_reported_app :
    run_outcome (.returns 200 (.returns docNoTbody)) =
      (["Fetching data from " ++ url ++ "...",
        "Successfully fetched data.",
        "Error: Could not find the arrivals table (tbody) on the page."],
       none) :=
  missing_table_reported docNoTbody 200 rfl rfl

/-- Claim C6 counterexample: 300 is not a success status (2xx), yet
`raise_for_status` raises only for 400–599, so the program prints no error
line and the extractor runs (the row-count and report lines appear). -/
theorem nonsuccess_status_not_always_error :
    ¬ (200 ≤ 300 ∧ 300 < 300) ∧
    run_outcome (.returns 300 (.returns docOneRow)) =
      (["Fetching data from " ++ url ++ "...",
        "Successfully fetched data.",
        "Found 1 arrival rows. Parsing...",
        "\n--- Train Arrivals for Olsztyn Główny ---",
        "From: A                         | Arrivals: 10:15",
        "-----------------------------------------"], none) ∧
    ((run_outcome (.returns 300 (.returns docOneRow))).1.all
      (fun l => !(("Error".data).isPrefixOf l.data))) = true :=
  ⟨by decide, rfl, rfl⟩

/-- Claim C6 (amended): for every transport-level fetch failure and every
HTTP status in 400–599, the program prints the fetch line followed by one
error line naming the underlying failure, and nothing else: the extractor is
never invoked. -/
theorem fetch_failure_reported (f : FetchOutcome)
    (h : (∃ e, f = .raises e) ∨
         (∃ s p, f = .returns s p ∧ 400 ≤ s ∧ s < 600)) :
    run_outcome f =
      (["Fetching data from " ++ url ++ "...",
        "Error fetching the URL: " ++ failure_message f], none) := by
  rcases h with ⟨e, rfl⟩ | ⟨s, p, rfl, h4, h6⟩
  · rfl
  · have hm : ∃ m, http_error s = some m := by
      unfold http_error
      by_cases h5 : s < 500
      · rw [if_pos ⟨h4, h5⟩]; exact ⟨_, rfl⟩
      · rw [if_neg (fun hc => h5 hc.2),
          if_pos ⟨Nat.le_of_not_lt h5, h6⟩]
        exact ⟨_, rfl⟩
    obtain ⟨m, hm⟩ := hm
    simp only [run_outcome, tryBody, failure_message, hm, Option.getD_some,
      List.singleton_append]

/-- Witness for the amended C6 at a connection failure. -/
theorem fetch_failure_reported_app :
    run_outcome (.raises "connection refused") =
      (["Fetching data from " ++ url ++ "...",
        "Error fetching the URL: "
          ++ failure_message (.raises "connection refused")], none) :=
  fetch_failure_reported (.raises "connection refused") (Or.inl ⟨_, rfl⟩)

/-- A table all of whose rows are skipped builds the empty mapping. -/
theorem processRows_eq_nil (rows : List Node)
    (h : ∀ r ∈ rows, rowEntry r = none) : processRows rows = [] := by
  unfold processRows
  induction rows with
  | nil => rfl
  | cons r rs ih =>
    rw [List.foldl_cons, processRow_eq, h r (List.mem_cons_self _ _)]
    exact ih (fun r' hr' => h r' (List.mem_cons_of_mem _ hr'))

/-- Claim C7: a document whose table body yields no valid entry (no rows, or
every row skipped) produces the empty mapping and the "no data" message, not
an error. -/
theorem empty_table_no_data (p tb : Node) (status : Nat)
    (hs : http_error status = none)
    (hf : find "tbody" p = some tb)
    (hrows : ∀ r ∈ find_all "tr" tb, rowEntry r = none) :
    processRows (find_all "tr" tb) = [] ∧
    run_outcome (.returns status (.returns p)) =
      (["Fetching data from " ++ url ++ "...",
        "Successfully fetched data.",
        "Found " ++ toString (find_all "tr" tb).length
          ++ " arrival rows. Parsing...",
        "\n--- Train Arrivals for Olsztyn Główny ---",
        "No arrival data could be parsed.",
        "-----------------------------------------"], none) := by
  have hnil := processRows_eq_nil _ hrows
  refine ⟨hnil, ?_⟩
  simp only [run_outcome, tryBody, hf, hs, hnil, reportLines]
  simp

/-- Witness for C7 at a document with an empty `tbody`. -/
theorem empty_table_no_data_app :
    processRows (find_all "tr" (Node.elem "tbody" [])) = [] ∧
    run_outcome (.returns 200 (.returns docEmptyTbody)) =
      (["Fetching data from " ++ url ++ "...",
        "Successfully fetched data.",
        "Found " ++ toString (find_all "tr" (Node.elem "tbody" [])).length
          ++ " arrival rows. Parsing...",
        "\n--- Train Arrivals for Olsztyn Główny ---",
        "No arrival data could be parsed.",
        "-----------------------------------------"], none) :=
  empty_table_no_data docEmptyTbody (Node.elem "tbody" []) 200 rfl rfl
    (by
      intro r hr
      rw [show find_all "tr" (Node.elem "tbody" []) = ([] : List Node)
        from rfl] at hr
      exact absurd hr (List.not_mem_nil _))

/-- Claim C8: on a non-empty final mapping the reporter prints, between the
banner lines, one line per entry of the form
`From: <station left-justified to width 25> | Arrivals: <", "-joined times>`,
iterating the entries in the mapping's insertion order. -/
theorem report_format (p tb : Node) (status : Nat)
    (hs : http_error status = none)
    (hf : find "tbody" p = some tb)
    (hne : processRows (find_all "tr" tb) ≠ []) :
    run_outcome (.returns status (.returns p)) =
      (["Fetching data from " ++ url ++ "...",
        "Successfully fetched data.",
        "Found " ++ toString (find_all "tr" tb).length
          ++ " arrival rows. Parsing...",
        "\n--- Train Arrivals for Olsztyn Główny ---"]
        ++ (processRows (find_all "tr" tb)).map (fun entry =>
            "From: " ++ ljust entry.1 25 ++ " | Arrivals: "
              ++ String.intercalate ", " entry.2)
        ++ ["-----------------------------------------"], none) := by
  have hfalse : (processRows (find_all "tr" tb)).isEmpty = false := by
    cases hpr : processRows (find_all "tr" tb) with
    | nil => exact absurd hpr hne
    | cons q qs => rfl
  simp only [run_outcome, tryBody, hf, hs, reportLines, hfalse]
  simp

/-- Witness for C8 at a one-row document. -/
theorem report_format_app :
    run_outcome (.returns 200 (.returns docOneRow)) =
      (["Fetching data from " ++ url ++ "...",
        "Successfully fetched data.",
        "Found " ++ toString (find_all "tr" (Node.elem "tbody" [fixtureRow])).length
          ++ " arrival rows. Parsing...",
        "\n--- Train Arrivals for Olsztyn Główny ---"]
        ++ (processRows (find_all "tr" (Node.elem "tbody" [fixtureRow]))).map
            (fun entry =>
              "From: " ++ ljust entry.1 25 ++ " | Arrivals: "
                ++ String.intercalate ", " entry.2)
        ++ ["-----------------------------------------"], none) :=
  report_format docOneRow (Node.elem "tbody" [fixtureRow]) 200 rfl rfl
    (by
      rw [show processRows (find_all "tr" (Node.elem "tbody" [fixtureRow])) =
        [("A", ["10:15"])] from rfl]
      exact List.cons_ne_nil _ _)

/-- Claim C9: whatever the outcome of the external calls — transport
failure, HTTP error status, parsing exception, missing table, empty data —
the call completes and returns normally: no exception escapes it. -/
theorem run_never_raises (f : FetchOutcome) : (run_outcome f).2 = none := by
  unfold run_outcome
  cases htb : tryBody f with
  | mk ls oe =>
    cases oe with
    | none => rfl
    | some e => cases e <;> rfl

/-! ### Value lists (claim C10) -/

/-- Claim C10: every value list of the final mapping is non-empty (the loop
requires at least one time marker), but its *elements* are never checked for
non-emptiness: a row with a non-empty station name whose markers all trim to
the empty string still yields an entry whose times are empty strings. -/
theorem arrival_values_nonempty_elements_unchecked :
    (∀ rows k v, (k, v) ∈ processRows rows → v ≠ []) ∧
    processRows [blankTimesRow] = [("A", ["", ""])] := by
  constructor
  · intro rows k v h
    rcases mem_foldl_processRow rows [] _ h with h0 | ⟨r, hr, he⟩
    · exact absurd h0 (List.not_mem_nil _)
    · obtain ⟨cell, _, _, _, hspan, hv⟩ := rowEntry_some he
      rw [hv]
      intro hc
      exact hspan (List.map_eq_nil_iff.mp hc)
  · rfl

/-- Witness for C10: the universal part applied at the blank-markers row. -/
theorem arrival_values_nonempty_elements_unchecked_app :
    (["", ""] : List String) ≠ [] :=
  arrival_values_nonempty_elements_unchecked.1 [blankTimesRow] "A" ["", ""]
    (show ("A", ["", ""]) ∈ processRows [blankTimesRow] by
      rw [arrival_values_nonempty_elements_unchecked.2]
      exact List.mem_singleton.mpr rfl)

end TrainScraper
